import Mathlib

/-!
Verification of the watch-progress / catalog web application
(`final_website/app.py`) against its natural-language specification.

The Python source is shallowly embedded below:
* `Float` time positions are modelled as exact rationals (`ℚ`);
* database timestamps (`datetime.utcnow()`) are modelled as an abstract
  `now : Nat` tick passed to each operation;
* a SQLAlchemy row is a Lean structure; a table is a Lean list;
* handler control flow is translated branch-by-branch from the source.

Definitions come first, then the lemmas and claim theorems.
-/

namespace FinalWebstreaming

/-! ## Definitions -/

/-! ### Progress reconciliation (`save_progress`, app.py lines 638–705) -/

/-- One `UserProgress` row, restricted to the fields `save_progress`
reconciles: `time_position` (Float → ℚ), `completed`, `last_watched`
(DateTime → abstract tick).  The composite key
(user_id, anime_id, season_number, episode_number) is handled by the
caller's lookup and is not part of this record. -/
structure ProgressEntry where
  time_position : ℚ
  completed : Bool
  last_watched : Nat
  deriving DecidableEq, Repr

/-- The body of `save_progress` (app.py lines 648–702) for one key, given
the result of the initial `UserProgress.query...first()` lookup as
`existing`.  The source contains two consecutive update blocks:

1. lines 656–672: if a row exists, overwrite `time_position`, `completed`
   and `last_watched` with the reported values; otherwise construct a new
   row from the reported values.
2. lines 674–700: `if progress:` — after block 1 the Python variable
   `progress` is always bound to a (truthy) row object, so the `else`
   branch of this block (lines 690–700, creating a second new row) is
   unreachable and is omitted here.  The `then` branch re-inspects
   `progress.completed` (already overwritten by block 1), optionally
   re-assigns the reported values or applies the 50%-of-stored-position
   heuristic, and always refreshes `last_watched`. -/
def save_progress_update (existing : Option ProgressEntry) (time_position : ℚ)
    (completed : Bool) (now : Nat) : ProgressEntry :=
  -- block 1 (lines 656–672)
  let progress : ProgressEntry :=
    match existing with
    | some p =>
        { p with time_position := time_position, completed := completed,
                 last_watched := now }
    | none =>
        { time_position := time_position, completed := completed,
          last_watched := now }
  -- block 2 (lines 674–689); `if progress:` is always true here
  let progress :=
    if !progress.completed then
      { progress with time_position := time_position, completed := completed }
    else
      if !completed then
        if time_position < progress.time_position * 0.5 then
          { progress with completed := false, time_position := time_position }
        else
          progress
      else
        progress
  { progress with last_watched := now }

/-- Outcome of the `save_progress` POST handler: either success together
with the persisted row, or a validation failure (the spec's
`ValidationError`; the handler in the source has no such path). -/
inductive SaveResult where
  | ok (entry : ProgressEntry)
  | validationError
  deriving DecidableEq, Repr

/-- The `save_progress` POST handler (lines 638–703): it performs no
validation of the reported position and unconditionally returns
`{'success': True}` after persisting the reconciled row. -/
def save_progress_handler (existing : Option ProgressEntry) (time_position : ℚ)
    (completed : Bool) (now : Nat) : SaveResult :=
  SaveResult.ok (save_progress_update existing time_position completed now)

/-- Modelled from the spec (§4.1 rule 2 read as an unconditional
overwrite), for the refinement claim C3: the reported values replace the
stored ones outright. -/
def overwrite_reconcile (_existing : ProgressEntry) (time_position : ℚ)
    (completed : Bool) (now : Nat) : ProgressEntry :=
  { time_position := time_position, completed := completed, last_watched := now }

/-! ### Favorites toggle (`toggle_favorite`, app.py lines 707–734) -/

/-- The `UserFavorite` table, reduced to its unique key: a row is a
(user_id, anime_id) pair; the surrogate id and `added_at` timestamp carry
no behaviour.  Rows are listed in insertion order (`db.session.add`
appends). -/
abbrev FavTable := List (Nat × Nat)

/-- `toggle_favorite` (lines 707–734): look up the first row for the
(user, anime) pair; delete it and answer "removed" if present, otherwise
insert the pair and answer "added". -/
def toggle_favorite (favs : FavTable) (user_id anime_id : Nat) :
    String × FavTable :=
  match favs.find? (fun f => f.1 == user_id && f.2 == anime_id) with
  | some favorite => ("removed", favs.erase favorite)
  | none => ("added", favs ++ [(user_id, anime_id)])

/-! ### Catalog data and append (`add_anime`, app.py lines 388–444) -/

/-- An episode of the catalog document, reduced to its number (display
metadata and the video locator carry no behaviour for the claims). -/
structure Episode where
  episode_number : Nat
  deriving DecidableEq, Repr

/-- A season of a catalog title. -/
structure Season where
  season_number : Nat
  episodes : List Episode
  deriving DecidableEq, Repr

/-- A catalog title ("anime" in the source), reduced to the fields the
claims use: numeric id and the seasons list. -/
structure Anime where
  id : Nat
  seasons : List Season
  deriving DecidableEq, Repr

/-- Python's `max` over a nonempty list (`max(a.get('id', 0) for a in
anime_data)`); 0 on the empty list, which the caller guards against. -/
def pyMax : List Nat → Nat
  | [] => 0
  | x :: rest => rest.foldl Nat.max x

/-- The id assignment of `add_anime` (lines 405–408): `new_id = 1`, then
if the catalog is nonempty, `new_id = max(ids) + 1`. -/
def new_anime_id (anime_data : List Anime) : Nat :=
  match anime_data with
  | [] => 1
  | _ => pyMax (anime_data.map Anime.id) + 1

/-! ### Continue-watching view (`index`, app.py lines 167–219) -/

/-- A full `UserProgress` row, with its composite key, as read by the
`index` view. -/
structure ProgressRow where
  user_id : Nat
  anime_id : Nat
  season_number : Nat
  episode_number : Nat
  time_position : ℚ
  completed : Bool
  last_watched : Nat
  deriving DecidableEq, Repr

/-- One item of the continue-watching list: the joined anime, progress
row, season and episode, as assembled at app.py lines 196–201. -/
structure CWItem where
  anime : Anime
  progress : ProgressRow
  season : Season
  episode : Episode
  deriving DecidableEq, Repr

/-- `next((a for a in anime_data if int(a.get('id', 0)) == progress.anime_id), None)`. -/
def findAnime (catalog : List Anime) (aid : Nat) : Option Anime :=
  catalog.find? (fun a => a.id == aid)

/-- `next((s for s in anime.get('seasons', []) if s.get('season_number') == ...), None)`. -/
def findSeason (anime : Anime) (sn : Nat) : Option Season :=
  anime.seasons.find? (fun s => s.season_number == sn)

/-- `next((e for e in season.get('episodes', []) if e.get('episode_number') == ...), None)`. -/
def findEpisode (season : Season) (en : Nat) : Option Episode :=
  season.episodes.find? (fun e => e.episode_number == en)

/-- Insert a row into a list already sorted by descending
`last_watched`, keeping the order (models the SQL `ORDER BY
last_watched DESC`). -/
def insertByRecency (r : ProgressRow) : List ProgressRow → List ProgressRow
  | [] => [r]
  | x :: xs =>
      if r.last_watched ≤ x.last_watched then x :: insertByRecency r xs
      else r :: x :: xs

/-- Sort rows by descending `last_watched`. -/
def sortByRecency : List ProgressRow → List ProgressRow
  | [] => []
  | r :: rest => insertByRecency r (sortByRecency rest)

/-- The per-row loop of `index` (lines 186–202): skip rows whose anime
was already emitted, join each remaining row with the catalog, and
record the anime id as processed only when the join fully succeeds. -/
def cwLoop (catalog : List Anime) :
    List ProgressRow → List Nat → List CWItem
  | [], _ => []
  | p :: rest, processed =>
      if processed.contains p.anime_id then cwLoop catalog rest processed
      else
        match findAnime catalog p.anime_id with
        | none => cwLoop catalog rest processed
        | some anime =>
          match findSeason anime p.season_number with
          | none => cwLoop catalog rest processed
          | some season =>
            match findEpisode season p.episode_number with
            | none => cwLoop catalog rest processed
            | some episode =>
                ⟨anime, p, season, episode⟩ ::
                  cwLoop catalog rest (p.anime_id :: processed)

/-- The continue-watching list built by `index` (lines 176–202): the
query filters only on `user_id` — despite the comment announcing
"progressions non terminées", there is no `completed` filter — orders by
descending `last_watched`, and the loop joins and deduplicates per
anime. -/
def continue_watching (catalog : List Anime) (rows : List ProgressRow)
    (user_id : Nat) : List CWItem :=
  cwLoop catalog
    (sortByRecency (rows.filter (fun r => r.user_id == user_id))) []

/-! ### Drive-id extraction (`extract_drive_id`, app.py lines 139–165) -/

/-- The character class `[a-zA-Z0-9_-]` used by all three patterns. -/
def isDriveChar (c : Char) : Bool :=
  c.isAlpha || c.isDigit || c == '_' || c == '-'

/-- The literal part of `r'drive\.google\.com/file/d/([a-zA-Z0-9_-]+)'`. -/
def drivePat1 : List Char := "drive.google.com/file/d/".toList

/-- The literal part of `r'drive\.google\.com/open\?id=([a-zA-Z0-9_-]+)'`. -/
def drivePat2 : List Char := "drive.google.com/open?id=".toList

/-- `re.search` for a pattern of the form literal-then-`([a-zA-Z0-9_-]+)`:
scan left to right for the first position at which the literal occurs
followed by at least one class character; the captured group is the
maximal class-character run after the literal. -/
def searchPattern (lit : List Char) : List Char → Option (List Char)
  | [] => none
  | c :: rest =>
      if lit.isPrefixOf (c :: rest) then
        let run := ((c :: rest).drop lit.length).takeWhile isDriveChar
        if run.isEmpty then searchPattern lit rest
        else some run
      else searchPattern lit rest

/-- `url.startswith(('http://', 'https://'))`. -/
def startsWithHttp (url : List Char) : Bool :=
  "http://".toList.isPrefixOf url || "https://".toList.isPrefixOf url

/-- Python's `url.split('/')`: split at every slash, keeping empty
segments (and producing one empty segment for the empty string). -/
def splitSlash : List Char → List (List Char)
  | [] => [[]]
  | c :: rest =>
      if c == '/' then [] :: splitSlash rest
      else
        match splitSlash rest with
        | [] => [[c]]
        | p :: ps => (c :: p) :: ps

/-- The fallback loop of `extract_drive_id` (lines 158–162): the first
`'/'`-separated part of length > 20 that fully matches
`^[a-zA-Z0-9_-]+$`. -/
def findLongPart (url : List Char) : Option (List Char) :=
  (splitSlash url).find?
    (fun part => decide (20 < part.length) && part.all isDriveChar)

/-- `extract_drive_id` (lines 139–165): try the two drive URL patterns;
then, if the input is not http(s)-prefixed, return it unchanged as the
id; otherwise scan the path segments; otherwise give up with `None`. -/
def extract_drive_id (url : List Char) : Option (List Char) :=
  match searchPattern drivePat1 url with
  | some g => some g
  | none =>
    match searchPattern drivePat2 url with
    | some g => some g
    | none =>
      if !startsWithHttp url then some url
      else
        match findLongPart url with
        | some part => some part
        | none => none

/-! ## Lemmas and claim theorems -/

theorem save_progress_update_existing (e : ProgressEntry) (p : ℚ) (c : Bool)
    (now : Nat) :
    save_progress_update (some e) p c now =
      { time_position := p, completed := c, last_watched := now } := by
  cases c <;> simp [save_progress_update]

theorem save_progress_update_new (p : ℚ) (c : Bool) (now : Nat) :
    save_progress_update none p c now =
      { time_position := p, completed := c, last_watched := now } := by
  cases c <;> simp [save_progress_update]

/-- C1.  The claim says a heartbeat (completed=false, position 60 ≥ 0.5·100)
against a completed entry stored at position 100 leaves the entry
completed with position 100.  The code instead overwrites: the first
update block of `save_progress` runs before the preservation heuristic
can inspect the stored flag, so the result is (position 60,
completed=false). -/
theorem c1_completed_entry_overwritten_despite_heuristic :
    save_progress_update (some ⟨100, true, 0⟩) 60 false 1 = ⟨60, false, 1⟩ ∧
      (save_progress_update (some ⟨100, true, 0⟩) 60 false 1).completed ≠ true := by
  refine ⟨by decide, by decide⟩

/-- C2.  The claim says a heartbeat with completed=true against a
completed entry never changes the stored position.  The code overwrites
the position with the reported one: stored position 100, reported
(position 98, completed=true) ends at position 98 ≠ 100. -/
theorem c2_completed_heartbeat_changes_position :
    save_progress_update (some ⟨100, true, 0⟩) 98 true 1 = ⟨98, true, 1⟩ ∧
      (save_progress_update (some ⟨100, true, 0⟩) 98 true 1).time_position ≠ 100 := by
  refine ⟨by decide, by decide⟩

/-- C3.  For every existing entry, `save_progress` is equivalent to an
unconditional overwrite of position and completed flag with the reported
values (plus a refreshed last-watched): the first update block
overwrites the row before the reconciliation branch inspects
`progress.completed`, so the completed-preservation heuristic can never
fire. -/
theorem c3_save_progress_equals_unconditional_overwrite
    (e : ProgressEntry) (p : ℚ) (c : Bool) (now : Nat) :
    save_progress_update (some e) p c now = overwrite_reconcile e p c now :=
  save_progress_update_existing e p c now

/-- C4.  For every existing non-completed entry and any reported position
and flag, the heartbeat overwrites the stored position and flag with the
reported values and sets last-watched to now. -/
theorem c4_noncompleted_entry_overwritten
    (e : ProgressEntry) (p : ℚ) (c : Bool) (now : Nat)
    (_h : e.completed = false) :
    save_progress_update (some e) p c now =
      { time_position := p, completed := c, last_watched := now } :=
  save_progress_update_existing e p c now

theorem c4_noncompleted_entry_overwritten_witness :
    (⟨5, false, 0⟩ : ProgressEntry).completed = false ∧
      save_progress_update (some ⟨5, false, 0⟩) 7 true 2 = ⟨7, true, 2⟩ :=
  ⟨rfl, c4_noncompleted_entry_overwritten ⟨5, false, 0⟩ 7 true 2 rfl⟩

/-- C5.  For every existing completed entry with stored position T, a
heartbeat reporting completed=false and a position p < 0.5·T leaves the
entry uncompleted with position p. -/
theorem c5_restart_resets_completed_entry
    (e : ProgressEntry) (p : ℚ) (now : Nat)
    (_hc : e.completed = true) (_hp : p < e.time_position * 0.5) :
    save_progress_update (some e) p false now =
      { time_position := p, completed := false, last_watched := now } :=
  save_progress_update_existing e p false now

theorem c5_restart_resets_completed_entry_witness :
    (⟨100, true, 0⟩ : ProgressEntry).completed = true ∧
      (10 : ℚ) < (⟨100, true, 0⟩ : ProgressEntry).time_position * 0.5 ∧
      save_progress_update (some ⟨100, true, 0⟩) 10 false 1 = ⟨10, false, 1⟩ :=
  ⟨rfl, by norm_num,
    c5_restart_resets_completed_entry ⟨100, true, 0⟩ 10 1 rfl (by norm_num)⟩

/-- C6 counterexample.  The claim says a negative reported position makes
the heartbeat fail with a ValidationError and leaves the entry
unmodified.  The handler performs no validation: reporting position −5
against a completed entry stored at 100 succeeds and overwrites the
entry with position −5. -/
theorem c6_negative_position_accepted :
    save_progress_handler (some ⟨100, true, 0⟩) (-5) false 1 =
        SaveResult.ok ⟨-5, false, 1⟩ ∧
      save_progress_handler (some ⟨100, true, 0⟩) (-5) false 1 ≠
        SaveResult.validationError := by
  refine ⟨by decide, by decide⟩

/-- C6 amended.  The heartbeat handler performs no validation of the
reported position: even a negative position is accepted, the entry is
created or overwritten with it, and no ValidationError is raised. -/
theorem c6_no_position_validation
    (existing : Option ProgressEntry) (p : ℚ) (c : Bool) (now : Nat)
    (_hp : p < 0) :
    save_progress_handler existing p c now =
      SaveResult.ok { time_position := p, completed := c, last_watched := now } := by
  cases existing with
  | none => exact congrArg SaveResult.ok (save_progress_update_new p c now)
  | some e => exact congrArg SaveResult.ok (save_progress_update_existing e p c now)

theorem c6_no_position_validation_witness :
    (-5 : ℚ) < 0 ∧
      save_progress_handler none (-5) true 3 = SaveResult.ok ⟨-5, true, 3⟩ :=
  ⟨by norm_num, c6_no_position_validation none (-5) true 3 (by norm_num)⟩

theorem toggle_find_eq_none {favs : FavTable} {u a : Nat}
    (h : (u, a) ∉ favs) :
    favs.find? (fun f => f.1 == u && f.2 == a) = none := by
  rw [List.find?_eq_none]
  intro x hx
  simp only [Bool.and_eq_true, beq_iff_eq]
  rintro ⟨h1, h2⟩
  exact h (by cases x; simp_all)

/-- C8.  Starting from any favorites table without a row for the pair,
toggling twice returns "added" then "removed", and the table is back to
the initial state — in particular no FavoriteEntry for the pair
remains. -/
theorem c8_toggle_favorite_round_trip
    (favs : FavTable) (u a : Nat) (h : (u, a) ∉ favs) :
    (toggle_favorite favs u a).1 = "added" ∧
      (toggle_favorite (toggle_favorite favs u a).2 u a).1 = "removed" ∧
      (toggle_favorite (toggle_favorite favs u a).2 u a).2 = favs := by
  have hfind : favs.find? (fun f => f.1 == u && f.2 == a) = none :=
    toggle_find_eq_none h
  have h1 : toggle_favorite favs u a = ("added", favs ++ [(u, a)]) := by
    simp [toggle_favorite, hfind]
  have hfind2 : (favs ++ [(u, a)]).find? (fun f => f.1 == u && f.2 == a) =
      some (u, a) := by
    rw [List.find?_append, hfind]
    simp [List.find?]
  have herase : (favs ++ [(u, a)]).erase (u, a) = favs := by
    rw [List.erase_append_right _ h]
    simp
  have h2 : toggle_favorite (favs ++ [(u, a)]) u a = ("removed", favs) := by
    simp [toggle_favorite, hfind2, herase]
  exact ⟨by rw [h1], by rw [h1, h2], by rw [h1, h2]⟩

theorem c8_toggle_favorite_round_trip_witness :
    ((1, 2) ∉ ([] : FavTable)) ∧
      (toggle_favorite [] 1 2).1 = "added" ∧
      (toggle_favorite (toggle_favorite [] 1 2).2 1 2).1 = "removed" ∧
      (toggle_favorite (toggle_favorite [] 1 2).2 1 2).2 = [] :=
  ⟨by simp, c8_toggle_favorite_round_trip [] 1 2 (by simp)⟩

theorem foldl_max_le_iff (l : List Nat) :
    ∀ x b : Nat, l.foldl Nat.max x ≤ b ↔ x ≤ b ∧ ∀ y ∈ l, y ≤ b := by
  induction l with
  | nil => intro x b; simp
  | cons z zs ih =>
      intro x b
      rw [List.foldl_cons, ih]
      constructor
      · rintro ⟨hxz, hzs⟩
        rcases Nat.max_le.mp hxz with ⟨hx, hz⟩
        exact ⟨hx, fun y hy =>
          (List.mem_cons.mp hy).elim (fun e => e ▸ hz) (hzs y)⟩
      · rintro ⟨hx, hall⟩
        exact ⟨Nat.max_le.mpr ⟨hx, hall z (List.mem_cons_self z zs)⟩,
          fun y hy => hall y (List.mem_cons_of_mem z hy)⟩

theorem foldl_max_mem (l : List Nat) :
    ∀ x : Nat, l.foldl Nat.max x ∈ x :: l := by
  induction l with
  | nil => intro x; exact List.mem_singleton.mpr rfl
  | cons z zs ih =>
      intro x
      rw [List.foldl_cons]
      rcases List.mem_cons.mp (ih (Nat.max x z)) with h' | h'
      · rw [h']
        have hmc : Nat.max x z = x ∨ Nat.max x z = z := by
          rcases Nat.le_total x z with hle | hle
          · right; exact Nat.max_eq_right hle
          · left; exact Nat.max_eq_left hle
        rcases hmc with h2 | h2 <;> rw [h2]
        · exact List.mem_cons_self x (z :: zs)
        · exact List.mem_cons_of_mem x (List.mem_cons_self z zs)
      · exact List.mem_cons_of_mem x (List.mem_cons_of_mem z h')

theorem pyMax_le_iff (x : Nat) (l : List Nat) (b : Nat) :
    pyMax (x :: l) ≤ b ↔ x ≤ b ∧ ∀ y ∈ l, y ≤ b :=
  foldl_max_le_iff l x b

theorem pyMax_mem (x : Nat) (l : List Nat) : pyMax (x :: l) ∈ x :: l :=
  foldl_max_mem l x

/-- C7.  The claim says continue-watching contains only titles with a
non-completed ProgressEntry.  The query never filters on `completed`: a
user whose only progress row is completed (anime 1, season 1, episode 1,
completed=true) still gets that title in the view, carrying a completed
entry. -/
theorem c7_completed_entry_shown_in_continue_watching :
    continue_watching [⟨1, [⟨1, [⟨1⟩]⟩]⟩] [⟨1, 1, 1, 1, 500, true, 10⟩] 1 =
        [⟨⟨1, [⟨1, [⟨1⟩]⟩]⟩, ⟨1, 1, 1, 1, 500, true, 10⟩, ⟨1, [⟨1⟩]⟩, ⟨1⟩⟩] ∧
      (continue_watching [⟨1, [⟨1, [⟨1⟩]⟩]⟩] [⟨1, 1, 1, 1, 500, true, 10⟩] 1).map
          (fun i => i.progress.completed) = [true] := by
  refine ⟨by decide, by decide⟩

/-- C9.  `add_anime` assigns id 1 on an empty catalog; on a nonempty
catalog the new id is strictly above every existing id and equals some
existing id plus 1 (i.e. max + 1); in particular ids {3, 7} give 8. -/
theorem c9_new_id_is_max_plus_one :
    new_anime_id [] = 1 ∧
      (∀ (a : Anime) (l : List Anime),
        (∀ b ∈ a :: l, b.id < new_anime_id (a :: l)) ∧
          ∃ b ∈ a :: l, new_anime_id (a :: l) = b.id + 1) ∧
      new_anime_id [⟨3, []⟩, ⟨7, []⟩] = 8 := by
  refine ⟨rfl, ?_, rfl⟩
  intro a l
  constructor
  · intro b hb
    have : b.id ≤ pyMax ((a :: l).map Anime.id) := by
      have := (pyMax_le_iff a.id (l.map Anime.id)
        (pyMax ((a :: l).map Anime.id))).mp (le_refl _)
      rcases List.mem_cons.mp hb with h | h
      · exact h ▸ this.1
      · exact this.2 b.id (List.mem_map_of_mem Anime.id h)
    exact Nat.lt_succ_of_le this
  · have hmem := pyMax_mem a.id (l.map Anime.id)
    rw [← List.map_cons] at hmem
    rcases List.mem_map.mp hmem with ⟨b, hb, hid⟩
    exact ⟨b, hb, by simp [new_anime_id, hid]⟩

theorem c9_new_id_is_max_plus_one_witness :
    (⟨7, []⟩ : Anime) ∈ [(⟨3, []⟩ : Anime), ⟨7, []⟩] ∧
      (⟨7, []⟩ : Anime).id < new_anime_id [⟨3, []⟩, ⟨7, []⟩] :=
  ⟨by simp,
    (c9_new_id_is_max_plus_one.2.1 ⟨3, []⟩ [⟨7, []⟩]).1 ⟨7, []⟩ (by simp)⟩

/-- C10 counterexample.  The claim says every input that does not start
with http:// or https:// is returned unchanged, but the regex search
runs first: the non-http input "drive.google.com/file/d/x" yields the
captured id "x", not the input itself. -/
theorem c10_pattern_beats_identity_on_non_http_input :
    startsWithHttp "drive.google.com/file/d/x".toList = false ∧
      extract_drive_id "drive.google.com/file/d/x".toList = some ['x'] ∧
      extract_drive_id "drive.google.com/file/d/x".toList ≠
        some "drive.google.com/file/d/x".toList := by
  refine ⟨by decide, by decide, by decide⟩

/-- C10 amended.  Every input that is not http(s)-prefixed and matches
neither drive URL pattern is returned unchanged; and a `none` result is
possible only for an http(s)-prefixed input that matches neither pattern
and has no slash-separated segment longer than 20 characters consisting
only of `[a-zA-Z0-9_-]`. -/
theorem c10_identity_and_none_characterisation :
    (∀ url : List Char,
        searchPattern drivePat1 url = none →
        searchPattern drivePat2 url = none →
        startsWithHttp url = false →
        extract_drive_id url = some url) ∧
      (∀ url : List Char, extract_drive_id url = none →
        startsWithHttp url = true ∧
        searchPattern drivePat1 url = none ∧
        searchPattern drivePat2 url = none ∧
        ∀ part ∈ splitSlash url,
          ¬(20 < part.length ∧ part.all isDriveChar = true)) := by
  constructor
  · intro url h1 h2 h3
    simp [extract_drive_id, h1, h2, h3]
  · intro url h
    cases hp1 : searchPattern drivePat1 url with
    | some g => simp [extract_drive_id, hp1] at h
    | none =>
      cases hp2 : searchPattern drivePat2 url with
      | some g => simp [extract_drive_id, hp1, hp2] at h
      | none =>
        cases hw : startsWithHttp url with
        | false => simp [extract_drive_id, hp1, hp2, hw] at h
        | true =>
          cases hl : findLongPart url with
          | some part => simp [extract_drive_id, hp1, hp2, hw, hl] at h
          | none =>
            unfold findLongPart at hl
            refine ⟨rfl, rfl, rfl, ?_⟩
            intro part hpart hcontra
            have hnp := List.find?_eq_none.mp hl part hpart
            simp only [Bool.and_eq_true, decide_eq_true_eq] at hnp
            exact hnp ⟨hcontra.1, hcontra.2⟩

theorem c10_identity_and_none_characterisation_witness :
    extract_drive_id "abc!".toList = some "abc!".toList :=
  c10_identity_and_none_characterisation.1 "abc!".toList
    (by decide) (by decide) (by decide)

end FinalWebstreaming
